import Mathlib

/-!
Shallow embedding of the facade layer of pyatv (`pyatv/support/facade.py`):
the feature aggregation map (`FacadeFeatures`), the power-state bridge
(`FacadePower`), the metadata artwork relay (`FacadeMetadata.artwork`) and the
aggregate lifecycle of `FacadeAppleTV` (`add_protocol`, `connect`, `close`,
`service`).

Python-side effects are made explicit: the mutable objects become state values
that operations transform, exceptions become `Except`, async calls that either
succeed or raise become `Except String Unit` outcomes carried by each setup
record, and the observable calls made during `connect`/`close` are recorded as
an event trace.  Python `dict`s keyed by protocol are association lists with
insertion-order update semantics; the feature map dict is a function
`FeatureName → Option entry` (claims about it do not depend on its iteration
order).  A Python `set` argument becomes a `List` (set iteration order is
unspecified, so theorems quantify over every order).
-/

set_option autoImplicit false

namespace Facade

/-- Modelled from the spec: `BackendId` is "a small closed enumeration
identifying a protocol backend" (`pyatv.const.Protocol`, not part of the
sources under verification).  The four members are the ones named by
`DEFAULT_PRIORITIES` in `facade.py`. -/
inductive Protocol where
  | MRP
  | DMAP
  | Companion
  | AirPlay
deriving DecidableEq, Repr

/-- The list `DEFAULT_PRIORITIES = [Protocol.MRP, Protocol.DMAP, Protocol.Companion,
Protocol.AirPlay]` from `facade.py`. -/
def DEFAULT_PRIORITIES : List Protocol :=
  [Protocol.MRP, Protocol.DMAP, Protocol.Companion, Protocol.AirPlay]

/-- Position `DEFAULT_PRIORITIES.index(p)`: position of a protocol in the priority
list.  Every member of `Protocol` occurs in the list, so the Python
`list.index` call never raises here. -/
def priorityIndex : Protocol → Nat
  | Protocol.MRP => 0
  | Protocol.DMAP => 1
  | Protocol.Companion => 2
  | Protocol.AirPlay => 3

/-- Embeds `FacadeFeatures._has_higher_priority(first, second)`:
`DEFAULT_PRIORITIES.index(first) < DEFAULT_PRIORITIES.index(second)`. -/
def has_higher_priority (first second : Protocol) : Bool :=
  decide (priorityIndex first < priorityIndex second)

/-- Modelled from the spec: feature names form a finite closed enumeration
(`pyatv.const.FeatureName`, not part of the sources); represented by `Nat`
indices. -/
abbrev FeatureName := Nat

/-- Modelled from the spec: `FeatureState` is "one of
Available | Unavailable | Unknown | Unsupported" (`pyatv.const.FeatureState`,
not part of the sources). -/
inductive FeatureState where
  | Available
  | Unavailable
  | Unknown
  | Unsupported
deriving DecidableEq, Repr

/-- Modelled from the spec: `FeatureInfo` is a record
`{state, options: mapping}`; constructing it with only a state gives empty
options (`pyatv.interface.FeatureInfo`, not part of the sources). -/
structure FeatureInfo where
  state : FeatureState
  options : List (String × String)
deriving DecidableEq, Repr

/-- A backend `interface.Features` object: an identity plus its live
per-feature state query (`get_feature` on the concrete backend). -/
structure FeaturesImpl where
  implId : Nat
  getFeatureImpl : FeatureName → FeatureInfo

/-- The feature map of `FacadeFeatures`: `Dict[FeatureName, Tuple[Protocol,
interface.Features]]`, as a function to an optional entry. -/
abbrev FMap := FeatureName → Option (Protocol × FeaturesImpl)

/-- State of a `FacadeFeatures` object.  `registry` is modelled from the spec:
the `Relayer` base class (not part of the sources) binds at most one backend
instance per `BackendId`; `self.get(protocol)` returns that binding or
`None`.  `feature_map` is `self._feature_map`. -/
structure FacadeFeaturesState where
  registry : Protocol → Option FeaturesImpl
  feature_map : FMap

/-- The condition guarding the write in `add_mapping`:
`feature not in self._feature_map or self._has_higher_priority(protocol,
self._feature_map[feature][0])`. -/
def holderWins (protocol : Protocol) (cur : Option (Protocol × FeaturesImpl)) : Bool :=
  match cur with
  | none => true
  | some prev => has_higher_priority protocol prev.1

/-- One iteration of the `for feature in features` loop body of
`add_mapping`: set `self._feature_map[feature] = (protocol, instance)` when
the guard holds, else leave the map unchanged. -/
def fmStep (protocol : Protocol) (inst : FeaturesImpl) (fm : FMap) (feature : FeatureName) : FMap :=
  if holderWins protocol (fm feature) then
    fun g => if g = feature then some (protocol, inst) else fm g
  else fm

/-- Embeds `FacadeFeatures.add_mapping(protocol, features)`: look up the protocol's
registered instance; if there is none (`if instance:` is falsy) do nothing,
otherwise run the loop over the declared features. -/
def add_mapping (st : FacadeFeaturesState) (protocol : Protocol) (features : List FeatureName) : FacadeFeaturesState :=
  match st.registry protocol with
  | none => st
  | some inst =>
      { st with feature_map := features.foldl (fmStep protocol inst) st.feature_map }

/-- Embeds `FacadeFeatures.get_feature(feature_name)`: delegate to the holding
instance when the feature is in the map, otherwise return
`FeatureInfo(FeatureState.Unsupported)` (empty options).  The function is
total: no code path raises. -/
def get_feature (st : FacadeFeaturesState) (feature_name : FeatureName) : FeatureInfo :=
  match st.feature_map feature_name with
  | some entry => entry.2.getFeatureImpl feature_name
  | none => FeatureInfo.mk FeatureState.Unsupported []

/-- The value `add_mapping` leaves at one map slot for one loop iteration on
that very feature: overwrite when the guard `holderWins` holds, keep the
current entry otherwise. -/
def applyWinner (protocol : Protocol) (inst : FeaturesImpl) (cur : Option (Protocol × FeaturesImpl)) : Option (Protocol × FeaturesImpl) :=
  if holderWins protocol cur then some (protocol, inst) else cur

/-- A concrete backend features object used to instantiate theorems. -/
def implA : FeaturesImpl :=
  { implId := 1, getFeatureImpl := fun _ => FeatureInfo.mk FeatureState.Unavailable [] }

/-- A second concrete backend features object. -/
def implB : FeaturesImpl :=
  { implId := 2, getFeatureImpl := fun _ => FeatureInfo.mk FeatureState.Available [] }

/-- A concrete relayer registry: `MRP` (higher priority) bound to `implB`,
`DMAP` (lower priority) bound to `implA`. -/
def regAB : Protocol → Option FeaturesImpl := fun p =>
  match p with
  | Protocol.MRP => some implB
  | Protocol.DMAP => some implA
  | _ => none

/-- A fresh `FacadeFeatures` state over `regAB`: empty feature map. -/
def stAB : FacadeFeaturesState :=
  { registry := regAB, feature_map := fun _ => none }

/-- A `FacadeFeatures` state where feature `0` is already held by `MRP`. -/
def stHeld : FacadeFeaturesState :=
  { registry := regAB,
    feature_map := fun g => if g = 0 then some (Protocol.MRP, implB) else none }

/-- Modelled from the spec: device power states form an enumeration
(`pyatv.const.PowerState`, not part of the sources). -/
inductive PowerState where
  | Unknown
  | Off
  | On
deriving DecidableEq, Repr

/-- The external listener of a `FacadePower` bridge, modelled from the spec as
the log of `(old_state, new_state)` notifications it has received, in order
(`interface.StateProducer.listener`, not part of the sources). -/
structure PowerListenerLog where
  received : List (PowerState × PowerState)

/-- Embeds `FacadePower.powerstate_update(old_state, new_state)`: forward the pair to
the external listener unmodified — the body is the single call
`self.listener.powerstate_update(old_state, new_state)`, recorded here as one
appended entry in the listener's log. -/
def powerstate_update (log : PowerListenerLog) (old_state new_state : PowerState) : PowerListenerLog :=
  { log with received := log.received ++ [(old_state, new_state)] }

/-- A sequence of incoming backend power-state events delivered to the bridge
one after the other, each handled by `powerstate_update`. -/
def deliverEvents (log : PowerListenerLog) (events : List (PowerState × PowerState)) : PowerListenerLog :=
  events.foldl (fun acc ev => powerstate_update acc ev.1 ev.2) log

/-- Artwork as returned by a backend; the size fields record which size
constraint the backend was asked for (modelled from the spec:
`interface.ArtworkInfo` is not part of the sources, the claim is about the
forwarded `width`/`height` arguments). -/
structure ArtworkInfo where
  reqWidth : Option Int
  reqHeight : Option Int
deriving DecidableEq, Repr

/-- Embeds `FacadeMetadata.artwork(width, height)`: the body relays the call with
keyword arguments `width=width, height=height` to the backend resolved for
`artwork` — `relayArtwork` stands for that resolved backend method. -/
def artwork (relayArtwork : Option Int → Option Int → Option ArtworkInfo)
    (width : Option Int) (height : Option Int) : Option ArtworkInfo :=
  relayArtwork width height

/-- The Python default for the `width` parameter of `artwork`: `width=512`. -/
def artworkDefaultWidth : Option Int := some 512

/-- The Python default for the `height` parameter of `artwork`:
`height=None`. -/
def artworkDefaultHeight : Option Int := none

/-- Embeds `SetupData = Tuple[Callable[[], Awaitable[None]], Callable[[], None],
Set[FeatureName]]`: a connect routine, a close routine and a declared feature
set.  Each routine is modelled by its outcome: `Except.ok ()` for a normal
return, `Except.error e` for a raised exception `e`. -/
structure SetupData where
  connectOutcome : Except String Unit
  closeOutcome : Except String Unit
  features : List FeatureName

/-- Observable calls made by the aggregate facade during `connect` and
`close`. -/
inductive FacadeEvent where
  | connectCall : Protocol → FacadeEvent
  | closeCall : Protocol → FacadeEvent
  | sessionRelease : FacadeEvent
deriving DecidableEq, Repr

/-- Embeds `self._protocol_handlers`: a Python `dict` keyed by `Protocol`, i.e. an
association list iterated in insertion order, where updating an existing key
replaces its value in place. -/
abbrev Handlers := List (Protocol × SetupData)

/-- Python `dict` assignment `d[p] = sd`: replace the value in place when the
key is present (a dict holds each key at most once), append otherwise. -/
def dictInsert : Handlers → Protocol → SetupData → Handlers
  | [], p, sd => [(p, sd)]
  | x :: rest, p, sd =>
      if x.1 = p then (p, sd) :: rest else x :: dictInsert rest p sd

/-- Python `d[p]` lookup as an option. -/
def lookupHandler (hs : Handlers) (p : Protocol) : Option SetupData :=
  (hs.find? (fun x => decide (x.1 = p))).map (fun x => x.2)

/-- State of a `FacadeAppleTV` object: the protocol-handler dict and the
`FacadeFeatures` instance (the other per-capability facades hold no state the
claims touch). -/
structure FacadeAppleTVState where
  protocol_handlers : Handlers
  features : FacadeFeaturesState

/-- Embeds `FacadeAppleTV.add_protocol(protocol, setup_data)`:
`self._protocol_handlers[protocol] = setup_data` followed by
`self._features.add_mapping(protocol, setup_data[2])`. -/
def add_protocol (st : FacadeAppleTVState) (protocol : Protocol) (setup_data : SetupData) : FacadeAppleTVState :=
  { protocol_handlers := dictInsert st.protocol_handlers protocol setup_data,
    features := add_mapping st.features protocol setup_data.features }

/-- Embeds `FacadeAppleTV.connect()`: `for protocol_connect, _, _ in
self._protocol_handlers.values(): await protocol_connect()`.  Returns the
trace of connect calls made and the first raised exception, if any; a raise
leaves the loop and propagates, so later handlers are not reached. -/
def connectRun : Handlers → List FacadeEvent × Option String
  | [] => ([], none)
  | (p, sd) :: rest =>
      match sd.connectOutcome with
      | Except.ok _ =>
          let r := connectRun rest
          (FacadeEvent.connectCall p :: r.1, r.2)
      | Except.error e => ([FacadeEvent.connectCall p], some e)

/-- Running `connect` on a facade state runs over the handler dict in insertion
order. -/
def facadeConnect (st : FacadeAppleTVState) : List FacadeEvent × Option String :=
  connectRun st.protocol_handlers

/-- The `for _, protocol_close, _ in self._protocol_handlers.values():
protocol_close()` loop of `FacadeAppleTV.close()`.  There is no exception
handling in the body: a raising close routine leaves the loop and
propagates. -/
def closeLoop : Handlers → List FacadeEvent × Option String
  | [] => ([], none)
  | (p, sd) :: rest =>
      match sd.closeOutcome with
      | Except.ok _ =>
          let r := closeLoop rest
          (FacadeEvent.closeCall p :: r.1, r.2)
      | Except.error e => ([FacadeEvent.closeCall p], some e)

/-- Embeds `FacadeAppleTV.close()`: schedule the shared session manager's release
(`asyncio.ensure_future(self._session_manager.close())`), then run the close
loop over the handlers. -/
def facadeClose (st : FacadeAppleTVState) : List FacadeEvent × Option String :=
  (FacadeEvent.sessionRelease :: (closeLoop st.protocol_handlers).1,
   (closeLoop st.protocol_handlers).2)

/-- Count of protocol close-routine invocations in a trace. -/
def closeCallCount (trace : List FacadeEvent) : Nat :=
  trace.countP (fun ev =>
    match ev with
    | FacadeEvent.closeCall _ => true
    | _ => false)

/-- Modelled from the spec: a backend's advertised service/identity record
(`pyatv.interface.BaseService`, not part of the sources), identified
abstractly. -/
structure BaseService where
  sid : Nat
deriving DecidableEq, Repr

/-- The `for protocol in DEFAULT_PRIORITIES` loop of the `service` property:
return the first configured service, walking the priority list.  `cfg` stands
for `self._config.get_service` (modelled from the spec: the config holds at
most one service per protocol). -/
def findFirstService : List Protocol → (Protocol → Option BaseService) → Option BaseService
  | [], _ => none
  | p :: rest, cfg =>
      match cfg p with
      | some s => some s
      | none => findFirstService rest cfg

/-- Embeds `FacadeAppleTV.service`: walk `DEFAULT_PRIORITIES`, return the first
protocol's service that exists; if the loop finds none, raise
`RuntimeError("no service (bug)")`. -/
def serviceProp (cfg : Protocol → Option BaseService) : Except String BaseService :=
  match findFirstService DEFAULT_PRIORITIES cfg with
  | some s => Except.ok s
  | none => Except.error "no service (bug)"

/-- A setup record whose connect and close routines both return normally. -/
def sdOK : SetupData :=
  { connectOutcome := Except.ok (), closeOutcome := Except.ok (), features := [] }

/-- A setup record whose connect routine raises. -/
def sdConnFail : SetupData :=
  { connectOutcome := Except.error "connect failed", closeOutcome := Except.ok (),
    features := [] }

/-- A setup record whose close routine raises. -/
def sdCloseFail : SetupData :=
  { connectOutcome := Except.ok (), closeOutcome := Except.error "close failed",
    features := [] }

/-- A facade with two well-behaved protocols registered. -/
def stAllOK : FacadeAppleTVState :=
  { protocol_handlers := [(Protocol.MRP, sdOK), (Protocol.DMAP, sdOK)], features := stAB }

/-- A facade whose second registered protocol fails to connect. -/
def stConnFail : FacadeAppleTVState :=
  { protocol_handlers :=
      [(Protocol.MRP, sdOK), (Protocol.DMAP, sdConnFail), (Protocol.Companion, sdOK)],
    features := stAB }

/-- A facade whose first registered protocol raises on close. -/
def stCloseFail : FacadeAppleTVState :=
  { protocol_handlers := [(Protocol.MRP, sdCloseFail), (Protocol.DMAP, sdOK)],
    features := stAB }

/-- An initial record for `MRP` declaring feature `0`. -/
def recOld : SetupData :=
  { connectOutcome := Except.ok (), closeOutcome := Except.ok (), features := [0] }

/-- A replacement record for `MRP` declaring only feature `1`. -/
def recNew : SetupData :=
  { connectOutcome := Except.error "new connect", closeOutcome := Except.error "new close",
    features := [1] }

/-- A fresh aggregate facade over the `regAB` relayer registry. -/
def stFresh : FacadeAppleTVState :=
  { protocol_handlers := [], features := stAB }

/-- A probe backend for `artwork` that reports back the size constraint it was
asked for. -/
def artworkProbe : Option Int → Option Int → Option ArtworkInfo :=
  fun w h => some (ArtworkInfo.mk w h)

/-- A configuration advertising a service only for `DMAP`. -/
def cfgOne : Protocol → Option BaseService := fun p =>
  match p with
  | Protocol.DMAP => some (BaseService.mk 10)
  | _ => none

/-- A configuration advertising no service at all. -/
def cfgNone : Protocol → Option BaseService := fun _ => none

lemma has_higher_priority_irrefl (p : Protocol) : has_higher_priority p p = false := by
  simp [has_higher_priority]

lemma has_higher_priority_asymm (p q : Protocol) (h : has_higher_priority p q = true) : has_higher_priority q p = false := by
  unfold has_higher_priority at h ⊢
  simp only [decide_eq_true_eq] at h
  simp only [decide_eq_false_iff_not]
  omega

lemma fmStep_apply (prot : Protocol) (inst : FeaturesImpl) (fm : FMap) (a g : FeatureName) :
    fmStep prot inst fm a g = if g = a then applyWinner prot inst (fm a) else fm g := by
  by_cases hga : g = a
  · subst hga
    by_cases hw : holderWins prot (fm g) <;> simp [fmStep, applyWinner, hw]
  · by_cases hw : holderWins prot (fm a) <;> simp [fmStep, applyWinner, hw, hga]

lemma applyWinner_idem (prot : Protocol) (inst : FeaturesImpl) (cur : Option (Protocol × FeaturesImpl)) :
    applyWinner prot inst (applyWinner prot inst cur) = applyWinner prot inst cur := by
  unfold applyWinner
  by_cases hw : holderWins prot cur = true
  · rw [if_pos hw, ite_self]
  · simp [hw]

lemma foldl_fmStep (prot : Protocol) (inst : FeaturesImpl) (l : List FeatureName) (fm : FMap) (g : FeatureName) :
    (l.foldl (fmStep prot inst) fm) g = if g ∈ l then applyWinner prot inst (fm g) else fm g := by
  induction l generalizing fm with
  | nil => simp
  | cons a l ih =>
    simp only [List.foldl_cons]
    rw [ih]
    by_cases hga : g = a
    · subst hga
      by_cases hgl : g ∈ l <;> simp [hgl, fmStep_apply, applyWinner_idem]
    · by_cases hgl : g ∈ l <;> simp [hgl, hga, fmStep_apply]

lemma add_mapping_registry (st : FacadeFeaturesState) (prot : Protocol) (fs : List FeatureName) :
    (add_mapping st prot fs).registry = st.registry := by
  unfold add_mapping
  cases st.registry prot <;> rfl

lemma add_mapping_apply (st : FacadeFeaturesState) (prot : Protocol) (fs : List FeatureName)
    (inst : FeaturesImpl) (g : FeatureName) (h : st.registry prot = some inst) :
    (add_mapping st prot fs).feature_map g =
      if g ∈ fs then applyWinner prot inst (st.feature_map g) else st.feature_map g := by
  unfold add_mapping
  rw [h]
  simp [foldl_fmStep]

lemma add_mapping_none (st : FacadeFeaturesState) (prot : Protocol) (fs : List FeatureName)
    (h : st.registry prot = none) : add_mapping st prot fs = st := by
  unfold add_mapping
  rw [h]

/-- C1: for two protocols `B1` (lower priority) and `B2` (higher priority),
both with a registered `Features` instance and both declaring feature `F` via
`add_mapping`, `get_feature F` delegates to `B2`'s instance in both
registration orders — the feature-map winner is order-independent. -/
theorem get_feature_winner_order_independent
    (st : FacadeFeaturesState) (B1 B2 : Protocol) (i1 i2 : FeaturesImpl)
    (S1 S2 : List FeatureName) (F : FeatureName)
    (h1 : st.registry B1 = some i1) (h2 : st.registry B2 = some i2)
    (hprio : has_higher_priority B2 B1 = true)
    (hF1 : F ∈ S1) (hF2 : F ∈ S2) (hFree : st.feature_map F = none) :
    get_feature (add_mapping (add_mapping st B1 S1) B2 S2) F = i2.getFeatureImpl F ∧
    get_feature (add_mapping (add_mapping st B2 S2) B1 S1) F = i2.getFeatureImpl F := by
  constructor
  · have hreg2 : (add_mapping st B1 S1).registry B2 = some i2 := by
      rw [add_mapping_registry]; exact h2
    have hm1 : (add_mapping st B1 S1).feature_map F = some (B1, i1) := by
      rw [add_mapping_apply st B1 S1 i1 F h1]
      simp [hF1, hFree, applyWinner, holderWins]
    have hm2 : (add_mapping (add_mapping st B1 S1) B2 S2).feature_map F = some (B2, i2) := by
      rw [add_mapping_apply _ B2 S2 i2 F hreg2]
      simp [hF2, hm1, applyWinner, holderWins, hprio]
    unfold get_feature
    rw [hm2]
  · have hreg1 : (add_mapping st B2 S2).registry B1 = some i1 := by
      rw [add_mapping_registry]; exact h1
    have hm2 : (add_mapping st B2 S2).feature_map F = some (B2, i2) := by
      rw [add_mapping_apply st B2 S2 i2 F h2]
      simp [hF2, hFree, applyWinner, holderWins]
    have hm1 : (add_mapping (add_mapping st B2 S2) B1 S1).feature_map F = some (B2, i2) := by
      rw [add_mapping_apply _ B1 S1 i1 F hreg1]
      simp [hF1, hm2, applyWinner, holderWins, has_higher_priority_asymm B2 B1 hprio]
    unfold get_feature
    rw [hm1]

/-- C1 witness: with `MRP` (higher) holding `implB` and `DMAP` (lower)
holding `implA`, both declaring feature `0`, either registration order makes
`get_feature 0` delegate to `implB`. -/
theorem get_feature_winner_order_independent_witness :
    has_higher_priority Protocol.MRP Protocol.DMAP = true ∧
    (get_feature (add_mapping (add_mapping stAB Protocol.DMAP [0]) Protocol.MRP [0]) 0 =
        implB.getFeatureImpl 0 ∧
      get_feature (add_mapping (add_mapping stAB Protocol.MRP [0]) Protocol.DMAP [0]) 0 =
        implB.getFeatureImpl 0) :=
  ⟨by decide,
   get_feature_winner_order_independent stAB Protocol.DMAP Protocol.MRP implA implB
     [0] [0] 0 rfl rfl (by decide) (by decide) (by decide) rfl⟩

/-- C2: `add_mapping` preserves the holder invariant — an entry already held
by `(p, i)` is left unchanged by any call whose protocol does not have
strictly higher priority than `p`, and in general the entry after the call is
either the old one or the calling protocol's registered instance installed
under strictly higher priority. -/
theorem add_mapping_holder_invariant
    (st : FacadeFeaturesState) (q : Protocol) (S : List FeatureName)
    (f : FeatureName) (p : Protocol) (i : FeaturesImpl)
    (hheld : st.feature_map f = some (p, i)) :
    (has_higher_priority q p = false → (add_mapping st q S).feature_map f = some (p, i)) ∧
    ((add_mapping st q S).feature_map f = some (p, i) ∨
      ∃ j, st.registry q = some j ∧ has_higher_priority q p = true ∧
        (add_mapping st q S).feature_map f = some (q, j)) := by
  cases hreg : st.registry q with
  | none =>
    rw [add_mapping_none st q S hreg]
    exact ⟨fun _ => hheld, Or.inl hheld⟩
  | some j =>
    rw [add_mapping_apply st q S j f hreg, hheld]
    by_cases hfS : f ∈ S
    · rw [if_pos hfS]
      simp only [applyWinner, holderWins]
      by_cases hp : has_higher_priority q p = true
      · exact ⟨fun hfalse => absurd hp (by simp [hfalse]),
          Or.inr ⟨j, rfl, hp, by simp [hp]⟩⟩
      · have hp2 : has_higher_priority q p = false := by
          cases h2 : has_higher_priority q p
          · rfl
          · exact absurd h2 hp
        exact ⟨fun _ => by simp [hp2], Or.inl (by simp [hp2])⟩
    · rw [if_neg hfS]
      exact ⟨fun _ => rfl, Or.inl rfl⟩

/-- C2 witness: feature `0` held by `MRP`; an `add_mapping` call by the
lower-priority `DMAP` declaring feature `0` leaves the entry unchanged. -/
theorem add_mapping_holder_invariant_witness :
    has_higher_priority Protocol.DMAP Protocol.MRP = false ∧
    (add_mapping stHeld Protocol.DMAP [0]).feature_map 0 = some (Protocol.MRP, implB) :=
  ⟨by decide,
   (add_mapping_holder_invariant stHeld Protocol.DMAP [0] 0 Protocol.MRP implB rfl).1
     (by decide)⟩

/-- C3: when a feature has no holder in the map, `get_feature` returns
`FeatureInfo(FeatureState.Unsupported)` with empty options; `get_feature` is a
total function — no code path raises. -/
theorem get_feature_no_holder_unsupported
    (st : FacadeFeaturesState) (feature_name : FeatureName)
    (h : st.feature_map feature_name = none) :
    get_feature st feature_name = FeatureInfo.mk FeatureState.Unsupported [] := by
  unfold get_feature
  rw [h]

/-- C3 witness: on a fresh state, feature `7` has no holder and `get_feature`
returns the `Unsupported` info with empty options. -/
theorem get_feature_no_holder_unsupported_witness :
    stAB.feature_map 7 = none ∧
    get_feature stAB 7 = FeatureInfo.mk FeatureState.Unsupported [] :=
  ⟨rfl, get_feature_no_holder_unsupported stAB 7 rfl⟩

/-- C10: when the relayer registry holds no `Features` instance for a
protocol, `add_mapping` for that protocol is a silent no-op — the whole
`FacadeFeatures` state (registry and feature map) is returned unchanged and
nothing is raised. -/
theorem add_mapping_unregistered_noop
    (st : FacadeFeaturesState) (protocol : Protocol) (features : List FeatureName)
    (h : st.registry protocol = none) :
    add_mapping st protocol features = st :=
  add_mapping_none st protocol features h

/-- C10 witness: `AirPlay` has no registered instance in `regAB`, so its
`add_mapping` call with a non-empty feature set changes nothing. -/
theorem add_mapping_unregistered_noop_witness :
    stAB.registry Protocol.AirPlay = none ∧
    add_mapping stAB Protocol.AirPlay [3, 4] = stAB :=
  ⟨rfl, add_mapping_unregistered_noop stAB Protocol.AirPlay [3, 4] rfl⟩

lemma connectRun_all_ok (hs : Handlers) :
    (∀ x ∈ hs, x.2.connectOutcome = Except.ok ()) →
    connectRun hs = (hs.map (fun x => FacadeEvent.connectCall x.1), none) := by
  induction hs with
  | nil => intro _; rfl
  | cons x rest ih =>
    intro h
    obtain ⟨p, sd⟩ := x
    have hx : sd.connectOutcome = Except.ok () := h (p, sd) (by simp)
    have hr := ih (fun y hy => h y (by simp [hy]))
    simp [connectRun, hx, hr]

lemma connectRun_failure (p : Protocol) (sd : SetupData) (post : Handlers) (e : String)
    (he : sd.connectOutcome = Except.error e) :
    ∀ pre : Handlers, (∀ x ∈ pre, x.2.connectOutcome = Except.ok ()) →
      connectRun (pre ++ (p, sd) :: post) =
        (pre.map (fun x => FacadeEvent.connectCall x.1) ++ [FacadeEvent.connectCall p],
         some e) := by
  intro pre
  induction pre with
  | nil => intro _; simp [connectRun, he]
  | cons x rest ih =>
    intro hpre
    obtain ⟨q, sq⟩ := x
    have hx : sq.connectOutcome = Except.ok () := hpre (q, sq) (by simp)
    have hr := ih (fun y hy => hpre y (by simp [hy]))
    simp [connectRun, hx, hr]

/-- C4: `connect` invokes each registered protocol's connect routine
sequentially in registration order; when every routine succeeds all are
invoked in that order, and when one raises, the routines before it have run,
its own call is the last event, the remaining routines are not invoked, the
exception propagates, and no close or rollback call appears in the trace. -/
theorem connect_order_and_abort :
    (∀ st : FacadeAppleTVState,
      (∀ x ∈ st.protocol_handlers, x.2.connectOutcome = Except.ok ()) →
      facadeConnect st =
        (st.protocol_handlers.map (fun x => FacadeEvent.connectCall x.1), none)) ∧
    (∀ (st : FacadeAppleTVState) (pre post : Handlers) (p : Protocol) (sd : SetupData)
        (e : String),
      st.protocol_handlers = pre ++ (p, sd) :: post →
      (∀ x ∈ pre, x.2.connectOutcome = Except.ok ()) →
      sd.connectOutcome = Except.error e →
      facadeConnect st =
        (pre.map (fun x => FacadeEvent.connectCall x.1) ++ [FacadeEvent.connectCall p],
         some e)) := by
  constructor
  · intro st h
    unfold facadeConnect
    exact connectRun_all_ok st.protocol_handlers h
  · intro st pre post p sd e hhs hpre he
    unfold facadeConnect
    rw [hhs]
    exact connectRun_failure p sd post e he pre hpre

/-- C4 witness: with handlers `[MRP ok, DMAP failing, Companion ok]`,
`connect` runs `MRP` then `DMAP`, propagates the error, and never reaches
`Companion`; with all-ok handlers every connect runs in order. -/
theorem connect_order_and_abort_witness :
    facadeConnect stConnFail =
      ([FacadeEvent.connectCall Protocol.MRP, FacadeEvent.connectCall Protocol.DMAP],
       some "connect failed") ∧
    facadeConnect stAllOK =
      ([FacadeEvent.connectCall Protocol.MRP, FacadeEvent.connectCall Protocol.DMAP],
       none) :=
  ⟨connect_order_and_abort.2 stConnFail [(Protocol.MRP, sdOK)] [(Protocol.Companion, sdOK)]
      Protocol.DMAP sdConnFail "connect failed" rfl
      (by intro x hx; rw [List.mem_singleton] at hx; subst hx; rfl) rfl,
   connect_order_and_abort.1 stAllOK
      (by intro x hx; simp [stAllOK] at hx; rcases hx with h | h <;> subst h <;> rfl)⟩

lemma closeLoop_all_ok (hs : Handlers) :
    (∀ x ∈ hs, x.2.closeOutcome = Except.ok ()) →
    closeLoop hs = (hs.map (fun x => FacadeEvent.closeCall x.1), none) := by
  induction hs with
  | nil => intro _; rfl
  | cons x rest ih =>
    intro h
    obtain ⟨p, sd⟩ := x
    have hx : sd.closeOutcome = Except.ok () := h (p, sd) (by simp)
    have hr := ih (fun y hy => h y (by simp [hy]))
    simp [closeLoop, hx, hr]

lemma closeLoop_failure (p : Protocol) (sd : SetupData) (post : Handlers) (e : String)
    (he : sd.closeOutcome = Except.error e) :
    ∀ pre : Handlers, (∀ x ∈ pre, x.2.closeOutcome = Except.ok ()) →
      closeLoop (pre ++ (p, sd) :: post) =
        (pre.map (fun x => FacadeEvent.closeCall x.1) ++ [FacadeEvent.closeCall p],
         some e) := by
  intro pre
  induction pre with
  | nil => intro _; simp [closeLoop, he]
  | cons x rest ih =>
    intro hpre
    obtain ⟨q, sq⟩ := x
    have hx : sq.closeOutcome = Except.ok () := hpre (q, sq) (by simp)
    have hr := ih (fun y hy => hpre y (by simp [hy]))
    simp [closeLoop, hx, hr]

/-- C5 counterexample: two protocols are registered and the first one's close
routine raises; only one close invocation happens, not two, so close
invocations do not equal registered protocols and the second protocol's close
routine never runs. -/
theorem close_not_all_invoked_counterexample :
    closeCallCount (facadeClose stCloseFail).1 = 1 ∧
    stCloseFail.protocol_handlers.length = 2 ∧
    ¬ closeCallCount (facadeClose stCloseFail).1 = stCloseFail.protocol_handlers.length ∧
    (facadeClose stCloseFail).2 = some "close failed" := by
  refine ⟨rfl, rfl, ?_, rfl⟩
  decide

/-- C5 (amended): `close` schedules the shared session release and then
invokes the registered close routines in registration order; when none raises
every registered protocol's close routine is invoked exactly once, but a
raising close routine propagates and the remaining close routines are not
invoked. -/
theorem close_order_and_abort :
    (∀ st : FacadeAppleTVState,
      (∀ x ∈ st.protocol_handlers, x.2.closeOutcome = Except.ok ()) →
      facadeClose st =
        (FacadeEvent.sessionRelease ::
          st.protocol_handlers.map (fun x => FacadeEvent.closeCall x.1), none)) ∧
    (∀ (st : FacadeAppleTVState) (pre post : Handlers) (p : Protocol) (sd : SetupData)
        (e : String),
      st.protocol_handlers = pre ++ (p, sd) :: post →
      (∀ x ∈ pre, x.2.closeOutcome = Except.ok ()) →
      sd.closeOutcome = Except.error e →
      facadeClose st =
        (FacadeEvent.sessionRelease ::
          (pre.map (fun x => FacadeEvent.closeCall x.1) ++ [FacadeEvent.closeCall p]),
         some e)) := by
  constructor
  · intro st h
    unfold facadeClose
    rw [closeLoop_all_ok st.protocol_handlers h]
  · intro st pre post p sd e hhs hpre he
    unfold facadeClose
    rw [hhs, closeLoop_failure p sd post e he pre hpre]

/-- C5 witness: with all-ok handlers both registered close routines run once,
after the session release; with the failing first handler the trace stops at
its close call and the error propagates. -/
theorem close_order_and_abort_witness :
    facadeClose stAllOK =
      ([FacadeEvent.sessionRelease, FacadeEvent.closeCall Protocol.MRP,
        FacadeEvent.closeCall Protocol.DMAP], none) ∧
    facadeClose stCloseFail =
      ([FacadeEvent.sessionRelease, FacadeEvent.closeCall Protocol.MRP],
       some "close failed") :=
  ⟨close_order_and_abort.1 stAllOK
      (by intro x hx; simp [stAllOK] at hx; rcases hx with h | h <;> subst h <;> rfl),
   close_order_and_abort.2 stCloseFail [] [(Protocol.DMAP, sdOK)]
      Protocol.MRP sdCloseFail "close failed" rfl (by intro x hx; cases hx) rfl⟩

lemma deliverEvents_received (log : PowerListenerLog)
    (events : List (PowerState × PowerState)) :
    (deliverEvents log events).received = log.received ++ events := by
  induction events generalizing log with
  | nil => simp [deliverEvents]
  | cons e evs ih =>
    show (deliverEvents (powerstate_update log e.1 e.2) evs).received = _
    rw [ih]
    simp [powerstate_update]

/-- C8: the power bridge forwards every incoming backend power-state
notification to the external listener exactly once, in arrival order, with
the `(old_state, new_state)` payload unmodified: the listener's log after any
event sequence is exactly that sequence. -/
theorem power_events_forwarded_verbatim (events : List (PowerState × PowerState)) :
    (deliverEvents (PowerListenerLog.mk []) events).received = events := by
  rw [deliverEvents_received]
  rfl

lemma lookupHandler_dictInsert (hs : Handlers) (p : Protocol) (sd : SetupData) :
    lookupHandler (dictInsert hs p sd) p = some sd := by
  induction hs with
  | nil => simp [dictInsert, lookupHandler, List.find?]
  | cons x rest ih =>
    by_cases hx : x.1 = p
    · simp [dictInsert, hx, lookupHandler, List.find?]
    · simp only [dictInsert, if_neg hx]
      simp only [lookupHandler, List.find?] at ih ⊢
      simp [hx, ih]

/-- C6 counterexample: `MRP` is first added with a record declaring feature
`0`, then re-added with a record declaring only feature `1`; the stored record
becomes the new one, yet feature `0` — which the new record does not declare —
is still attributed to `MRP` in the feature map, a leftover contribution of
the replaced record. -/
theorem add_protocol_replace_counterexample :
    (add_protocol (add_protocol stFresh Protocol.MRP recOld) Protocol.MRP
        recNew).protocol_handlers = [(Protocol.MRP, recNew)] ∧
    ¬ (0 : FeatureName) ∈ recNew.features ∧
    (add_protocol (add_protocol stFresh Protocol.MRP recOld) Protocol.MRP
        recNew).features.feature_map 0 = some (Protocol.MRP, implB) := by
  refine ⟨rfl, ?_, rfl⟩
  decide

/-- C6 (amended): re-adding a protocol replaces the stored setup record — so
the connect and close routines used afterwards come from the new record — and
features of the new record get entries, but the feature map is not purged:
every feature declared by the old record (unclaimed before the first call)
stays mapped to the protocol's registered instance even when the new record
no longer declares it. -/
theorem add_protocol_replace_partial
    (st : FacadeAppleTVState) (p : Protocol) (r1 r2 : SetupData) (i : FeaturesImpl)
    (hreg : st.features.registry p = some i) :
    lookupHandler
        (add_protocol (add_protocol st p r1) p r2).protocol_handlers p = some r2 ∧
    (∀ g, g ∈ r1.features → st.features.feature_map g = none →
      (add_protocol (add_protocol st p r1) p r2).features.feature_map g =
        some (p, i)) ∧
    (∀ g, g ∈ r2.features → st.features.feature_map g = none →
      (add_protocol (add_protocol st p r1) p r2).features.feature_map g =
        some (p, i)) := by
  have hreg1 : (add_protocol st p r1).features.registry p = some i := by
    show (add_mapping st.features p r1.features).registry p = some i
    rw [add_mapping_registry]
    exact hreg
  refine ⟨?_, ?_, ?_⟩
  · show lookupHandler (dictInsert (dictInsert st.protocol_handlers p r1) p r2) p = some r2
    exact lookupHandler_dictInsert _ p r2
  · intro g hg hnone
    have h1 : (add_protocol st p r1).features.feature_map g = some (p, i) := by
      show (add_mapping st.features p r1.features).feature_map g = some (p, i)
      rw [add_mapping_apply st.features p r1.features i g hreg]
      simp [hg, hnone, applyWinner, holderWins]
    show (add_mapping (add_protocol st p r1).features p r2.features).feature_map g = _
    rw [add_mapping_apply _ p r2.features i g hreg1]
    by_cases hg2 : g ∈ r2.features
    · simp [hg2, h1, applyWinner, holderWins, has_higher_priority_irrefl]
    · simp [hg2, h1]
  · intro g hg2 hnone
    have h1 : (add_protocol st p r1).features.feature_map g =
        if g ∈ r1.features then some (p, i) else none := by
      show (add_mapping st.features p r1.features).feature_map g = _
      rw [add_mapping_apply st.features p r1.features i g hreg]
      by_cases hg1 : g ∈ r1.features <;> simp [hg1, hnone, applyWinner, holderWins]
    show (add_mapping (add_protocol st p r1).features p r2.features).feature_map g = _
    rw [add_mapping_apply _ p r2.features i g hreg1, if_pos hg2, h1]
    by_cases hg1 : g ∈ r1.features <;>
      simp [hg1, applyWinner, holderWins, has_higher_priority_irrefl]

/-- C6 amended-claim witness: instantiating the replacement scenario — the
stored record is the new one, feature `0` of the old record is still mapped,
and feature `1` of the new record is mapped. -/
theorem add_protocol_replace_partial_witness :
    lookupHandler
        (add_protocol (add_protocol stFresh Protocol.MRP recOld) Protocol.MRP
          recNew).protocol_handlers Protocol.MRP = some recNew ∧
    (add_protocol (add_protocol stFresh Protocol.MRP recOld) Protocol.MRP
        recNew).features.feature_map 0 = some (Protocol.MRP, implB) ∧
    (add_protocol (add_protocol stFresh Protocol.MRP recOld) Protocol.MRP
        recNew).features.feature_map 1 = some (Protocol.MRP, implB) := by
  have h := add_protocol_replace_partial stFresh Protocol.MRP recOld recNew implB rfl
  exact ⟨h.1, h.2.1 0 (by decide) rfl, h.2.2 1 (by decide) rfl⟩

lemma findFirstService_some (cfg : Protocol → Option BaseService) (s : BaseService)
    (p : Protocol) :
    ∀ pre : List Protocol, (∀ q ∈ pre, cfg q = none) → cfg p = some s →
      ∀ post, findFirstService (pre ++ p :: post) cfg = some s := by
  intro pre
  induction pre with
  | nil =>
    intro _ hp post
    simp [findFirstService, hp]
  | cons q rest ih =>
    intro hpre hp post
    have hq : cfg q = none := hpre q (by simp)
    simp only [List.cons_append, findFirstService, hq]
    exact ih (fun r hr => hpre r (by simp [hr])) hp post

lemma findFirstService_none (cfg : Protocol → Option BaseService)
    (h : ∀ p, cfg p = none) :
    ∀ l : List Protocol, findFirstService l cfg = none := by
  intro l
  induction l with
  | nil => rfl
  | cons p rest ih => simp [findFirstService, h p, ih]

lemma protocol_mem_DEFAULT_PRIORITIES (p : Protocol) : p ∈ DEFAULT_PRIORITIES := by
  cases p <;> decide

lemma findFirstService_isSome (cfg : Protocol → Option BaseService) (p : Protocol)
    (s : BaseService) (hp : cfg p = some s) :
    ∀ l : List Protocol, p ∈ l → (findFirstService l cfg).isSome := by
  intro l
  induction l with
  | nil => intro h; cases h
  | cons q rest ih =>
    intro hmem
    by_cases hq : (cfg q).isSome
    · obtain ⟨t, ht⟩ := Option.isSome_iff_exists.mp hq
      simp [findFirstService, ht]
    · have hqn : cfg q = none := Option.not_isSome_iff_eq_none.mp hq
      have hpq : p ≠ q := fun h => by rw [h, hqn] at hp; cases hp
      have hrest : p ∈ rest := by
        rcases List.mem_cons.mp hmem with h | h
        · exact absurd h hpq
        · exact h
      simp [findFirstService, hqn, ih hrest]

/-- C7: the `service` property walks `DEFAULT_PRIORITIES` in order and
returns the first protocol's configured service; whenever any protocol has a
configured service it produces a result, and when none exists it raises
`RuntimeError("no service (bug)")` — an internal invariant violation, not a
normal return. -/
theorem service_priority_resolution :
    (∀ (cfg : Protocol → Option BaseService) (p : Protocol) (s : BaseService),
      cfg p = some s → ∃ t, serviceProp cfg = Except.ok t) ∧
    (∀ cfg : Protocol → Option BaseService, (∀ p, cfg p = none) →
      serviceProp cfg = Except.error "no service (bug)") ∧
    (∀ (cfg : Protocol → Option BaseService) (pre : List Protocol) (p : Protocol)
        (post : List Protocol) (s : BaseService),
      DEFAULT_PRIORITIES = pre ++ p :: post →
      (∀ q ∈ pre, cfg q = none) → cfg p = some s →
      serviceProp cfg = Except.ok s) := by
  refine ⟨?_, ?_, ?_⟩
  · intro cfg p s hp
    have h := findFirstService_isSome cfg p s hp DEFAULT_PRIORITIES
      (protocol_mem_DEFAULT_PRIORITIES p)
    obtain ⟨t, ht⟩ := Option.isSome_iff_exists.mp h
    exact ⟨t, by unfold serviceProp; rw [ht]⟩
  · intro cfg h
    unfold serviceProp
    rw [findFirstService_none cfg h DEFAULT_PRIORITIES]
  · intro cfg pre p post s hsplit hpre hp
    unfold serviceProp
    rw [hsplit, findFirstService_some cfg s p pre hpre hp post]

/-- C7 witness: with only `DMAP` configured, `service` returns its record
(walking past `MRP`); with nothing configured it raises the internal
`RuntimeError`. -/
theorem service_priority_resolution_witness :
    serviceProp cfgOne = Except.ok (BaseService.mk 10) ∧
    serviceProp cfgNone = Except.error "no service (bug)" :=
  ⟨service_priority_resolution.2.2 cfgOne [Protocol.MRP] Protocol.DMAP
      [Protocol.Companion, Protocol.AirPlay] (BaseService.mk 10) rfl
      (by intro q hq; rw [List.mem_singleton] at hq; subst hq; rfl) rfl,
   service_priority_resolution.2.1 cfgNone (fun p => rfl)⟩

/-- C9 counterexample: the Python signature is `artwork(width=512,
height=None)`, so a call specifying neither parameter forwards `width = 512`
to the resolved backend — not an unset width — as the probe backend records;
hence such a call does not request the backend's default artwork size. -/
theorem artwork_default_width_counterexample :
    artwork artworkProbe artworkDefaultWidth artworkDefaultHeight =
      some (ArtworkInfo.mk (some 512) none) ∧
    artworkDefaultWidth ≠ (none : Option Int) := by
  refine ⟨rfl, ?_⟩
  decide

/-- C9 (amended): `artwork` forwards its `width`/`height` arguments to the
resolved backend unmodified; a call specifying neither parameter forwards the
Python defaults `width=512, height=None` (a width-only constraint, which
keeps the original aspect ratio), the backend's default size is requested
only by explicitly passing both as `None`, and specifying exactly one of the
two forwards it with the other `None`, preserving the aspect ratio. -/
theorem artwork_forwards_arguments :
    (∀ (f : Option Int → Option Int → Option ArtworkInfo) (w h : Option Int),
      artwork f w h = f w h) ∧
    (∀ f : Option Int → Option Int → Option ArtworkInfo,
      artwork f artworkDefaultWidth artworkDefaultHeight = f (some 512) none) ∧
    (∀ (f : Option Int → Option Int → Option ArtworkInfo) (w : Int),
      artwork f (some w) none = f (some w) none) ∧
    (∀ (f : Option Int → Option Int → Option ArtworkInfo) (h : Int),
      artwork f none (some h) = f none (some h)) ∧
    (∀ f : Option Int → Option Int → Option ArtworkInfo,
      artwork f none none = f none none) :=
  ⟨fun _ _ _ => rfl, fun _ => rfl, fun _ _ => rfl, fun _ _ => rfl, fun _ => rfl⟩

end Facade
